import Mathlib

/-!
Verification of the PixelPusherOS sandboxed command interpreter
(`utils/file_browser.py`, class `FileBrowser`) against its natural-language
specification.

Shallow embedding notes.

* `Config.BASE_DIR` (config.py, line 21) is `Path(__file__).parent.absolute()`,
  a `pathlib.Path` object, not a `str`.  The interpreter's sandbox checks call
  `some_string.startswith(Config.BASE_DIR)`; in CPython, `str.startswith`
  accepts only `str` (or a tuple of `str`) and raises
  `TypeError: startswith first arg must be str or a tuple of str, not PosixPath`
  for a `pathlib` argument.  The embedding keeps the `str` / `PosixPath`
  distinction in the type `PyVal` so this behaviour is represented faithfully.

* Python exceptions are modelled with `Except PyErr`; `execute`'s
  `try/except Exception` (file_browser.py, lines 132-137) is the explicit
  `match` in `execute` below that converts a handler error to the text
  `Error executing '<verb>': <message>`.

* The registry built in `execute` (lines 77-129) references eleven handler
  methods (`_make_directory`, `_create_file`, `_delete_file`, `_edit_file`,
  `_rename_file`, `_file_properties`, `_find_files`, `_process_list`,
  `_kill_process`, `_disk_usage`, `_memory_info`) whose bodies are not in the
  Python sources provided (the file notes "Additional file system methods would
  continue here"; the repository's other interpreter variants are not under
  src/).  Those handlers are modelled from the specification; each such
  definition carries a doc comment starting with `Modelled from the spec:`.

* Wall-clock time (`time.time()`) is modelled by a monotone `clock : Nat`
  carried in the state; host-dependent data (psutil, platform, network,
  environment) is modelled by a `Host` record carried in the state.
-/

/-- A Python value that is either a `str` or a `pathlib.PosixPath`, both
carrying their textual path.  `os.path` functions accept either (converting
via `os.fspath`), but `str` methods such as `startswith` accept only `str`. -/
inductive PyVal where
  | str (s : String)
  | posixPath (s : String)
deriving DecidableEq

/-- The text of a path value, as `os.fspath` returns it. -/
def PyVal.fspath : PyVal → String
  | .str s => s
  | .posixPath s => s

/-- A raised Python exception, reduced to the message `str(e)` that
`FileBrowser.execute` interpolates into its error text. -/
structure PyErr where
  msg : String
deriving DecidableEq

/-- The exact CPython message of `str.startswith` applied to a
`pathlib.PosixPath` argument. -/
def startswithPosixPathMsg : String :=
  "startswith first arg must be str or a tuple of str, not PosixPath"

/-- Model of Python `str.startswith(prefix)` where `prefix` is an arbitrary
value: a `str` prefix tests string-prefix-hood, any `pathlib` path raises
`TypeError`. -/
def pyStartswith (s : String) (pre : PyVal) : Except PyErr Bool :=
  match pre with
  | .str t => .ok (t.data.isPrefixOf s.data)
  | .posixPath _ => .error ⟨startswithPosixPathMsg⟩

/-- Model of Python `str.startswith(prefix)` for a plain `str` prefix
(used where the source compares two `str` values, e.g. the signal decoding in
routes/api.py and the scheme tests in `_curl_command`). -/
def strStartsWith (s pre : String) : Bool :=
  pre.data.isPrefixOf s.data

/-- Model of Python `str.strip()` (the interpreter only ever meets ASCII
whitespace): drop whitespace from both ends. -/
def pyStrip (s : String) : String :=
  ⟨((s.data.dropWhile Char.isWhitespace).reverse.dropWhile Char.isWhitespace).reverse⟩

/-- Model of Python `str.lower()` (the verbs and allow-list entries are
ASCII). -/
def pyLower (s : String) : String :=
  ⟨s.data.map Char.toLower⟩

/-- Model of `command.split(maxsplit=1)` on an already-stripped, non-empty
command: the verb is the leading run of non-whitespace, the argument is the
remainder with the separating whitespace removed (internal whitespace of the
argument is preserved). -/
def verbArg (command : String) : String × String :=
  (⟨command.data.takeWhile (fun c => ¬ c.isWhitespace)⟩,
   ⟨(command.data.dropWhile (fun c => ¬ c.isWhitespace)).dropWhile Char.isWhitespace⟩)

/-- Tokenization of a raw input line: `none` for a line that is empty after
stripping, otherwise the verb/argument split of the stripped line. -/
def tokenize (raw : String) : Option (String × String) :=
  let command := pyStrip raw
  if command = "" then none else some (verbArg command)

/-! ### POSIX path functions (`os.path`), as used by the interpreter -/

/-- Python `str.split('/')` on the character list (`"".split('/') == ['']`,
separators at the ends produce empty fields). -/
def splitOnSlash : List Char → List (List Char)
  | [] => [[]]
  | c :: rest =>
    match splitOnSlash rest with
    | [] => [[c]]
    | h :: t => if c = '/' then [] :: h :: t else (c :: h) :: t

/-- The `/`-separated fields of a string. -/
def slashFields (p : String) : List String :=
  (splitOnSlash p.data).map String.mk

/-- Python `s.endswith('/')`. -/
def pyEndsWithSlash (a : String) : Bool :=
  match a.data.getLast? with
  | some c => c = '/'
  | none => false

/-- Longest prefix of a character list up to and including its last `'/'`
(`none` if there is no slash).  Helper for `dirname`. -/
def takeUptoLastSlash : List Char → Option (List Char)
  | [] => none
  | c :: rest =>
    match takeUptoLastSlash rest with
    | some tail => some (c :: tail)
    | none => if c = '/' then some [c] else none

/-- Remove trailing `'/'` characters. -/
def rstripSlashes (cs : List Char) : List Char :=
  (cs.reverse.dropWhile (· = '/')).reverse

/-- Model of `os.path.dirname` (posixpath): everything up to the last slash,
with trailing slashes stripped unless the result consists only of slashes. -/
def dirname (p : String) : String :=
  match takeUptoLastSlash p.data with
  | none => ""
  | some head => if head.all (· = '/') then ⟨head⟩ else ⟨rstripSlashes head⟩

/-- Component processing loop of `posixpath.normpath`. -/
def normpathComps (initialSlashes : Nat) (comps : List String) : List String :=
  comps.foldl
    (fun acc comp =>
      if comp = "" ∨ comp = "." then acc
      else if comp ≠ ".." ∨ (initialSlashes = 0 ∧ acc = []) ∨ acc.getLast? = some ".." then
        acc ++ [comp]
      else if acc ≠ [] then acc.dropLast
      else acc)
    []

/-- Model of `os.path.normpath` (posixpath). -/
def normpath (p : String) : String :=
  if p = "" then "."
  else
    let initialSlashes : Nat :=
      if strStartsWith p "/" then
        (if strStartsWith p "//" ∧ ¬ strStartsWith p "///" then 2 else 1)
      else 0
    let newComps := normpathComps initialSlashes (slashFields p)
    let out := String.mk (List.replicate initialSlashes '/') ++ String.intercalate "/" newComps
    if out = "" then "." else out

/-- Model of two-argument `os.path.join` (posixpath). -/
def joinPath (a b : String) : String :=
  if strStartsWith b "/" then b
  else if a = "" ∨ pyEndsWithSlash a then a ++ b
  else a ++ "/" ++ b

/-- Length of the longest common prefix of two lists. -/
def commonPrefixLen : List String → List String → Nat
  | a :: as, b :: bs => if a = b then commonPrefixLen as bs + 1 else 0
  | _, _ => 0

/-- Model of `os.path.relpath` (posixpath) for absolute inputs: both paths are
normalized, split into components, and the result climbs out of the
uncommon part of `start` and descends into the uncommon part of `p`. -/
def relpath (p start : String) : String :=
  let pl := (slashFields (normpath p)).filter (· ≠ "")
  let sl := (slashFields (normpath start)).filter (· ≠ "")
  let i := commonPrefixLen sl pl
  let rel := List.replicate (sl.length - i) ".." ++ pl.drop i
  if rel = [] then "." else String.intercalate "/" rel

/-! ### Filesystem, host and session state -/

/-- A node of the modelled filesystem: a directory, or a regular file with its
text content. -/
inductive FsNode where
  | dir
  | file (content : String)
deriving DecidableEq

/-- The filesystem, as a finite map from absolute normalized paths to nodes. -/
abbrev Fs := List (String × FsNode)

def fsLookup (fs : Fs) (p : String) : Option FsNode :=
  match fs with
  | [] => none
  | (q, n) :: rest => if q = p then some n else fsLookup rest p

/-- Model of `os.path.exists`. -/
def pathExists (fs : Fs) (p : String) : Bool :=
  (fsLookup fs p).isSome

/-- Model of `os.path.isdir`. -/
def isDirFs (fs : Fs) (p : String) : Bool :=
  fsLookup fs p = some FsNode.dir

/-- Model of `os.path.isfile`. -/
def isFileFs (fs : Fs) (p : String) : Bool :=
  match fsLookup fs p with
  | some (FsNode.file _) => true
  | _ => false

def fileContent (fs : Fs) (p : String) : Option String :=
  match fsLookup fs p with
  | some (FsNode.file c) => some c
  | _ => none

/-- Last path component. -/
def basename (p : String) : String :=
  match (slashFields p).getLast? with
  | some b => b
  | none => p

/-- The names of the children of directory `p` in `fs`, sorted, as
`sorted(os.listdir(target_dir))` produces them. -/
def listdirSorted (fs : Fs) (p : String) : List String :=
  ((fs.filterMap (fun pr =>
      if dirname pr.1 = p ∧ pr.1 ≠ p then some (basename pr.1) else none)).mergeSort (· ≤ ·))

/-- Pre-rendered host facts for the system-information handlers.  psutil's
numeric results are carried already formatted (their float formatting is not
part of the model; no claim depends on the text of the reports). -/
structure SysData where
  osName : String
  platformStr : String
  memTotal : String
  memAvailable : String
  diskTotal : String
  cpuPercent : String
deriving DecidableEq

/-- Host-dependent data visible to the interpreter: clock strings, the
user environment, psutil query results (which may fail), host reports for the
system handlers, and the network (URL to response body, failures as errors). -/
structure Host where
  timeStr : String
  dateStr : String
  envUser : Option String
  uptimeSeconds : Option Nat
  sysQuery : Except String SysData
  psReport : Except String String
  killReport : Except String String
  dfReport : Except String String
  freeReport : Except String String
  net : String → Except String String
  latencyMs : Nat

/-- One entry of `self.command_history`: the dict
`{'command': ..., 'timestamp': ..., 'working_dir': ...}` of
`_add_to_history`. -/
structure HistEntry where
  command : String
  timestamp : Nat
  working_dir : PyVal
deriving DecidableEq

/-- The mutable state of one `FileBrowser` session, together with the
modelled external world (filesystem and host). -/
structure St where
  base_dir : String
  current_dir : PyVal
  command_history : List HistEntry
  clock : Nat
  fs : Fs
  host : Host

/-- The value `Config.BASE_DIR` as the interpreter sees it: a
`pathlib.PosixPath` (config.py, line 21). -/
def configBaseDir (st : St) : PyVal :=
  PyVal.posixPath st.base_dir

/-- `self.max_history = 100` (file_browser.py, line 45). -/
def maxHistory : Nat := 100

/-- The size limit of `_add_to_history`: beyond `max_history` entries, keep
the last `max_history` (`self.command_history[-self.max_history:]`). -/
def boundedHistory (h : List HistEntry) : List HistEntry :=
  if maxHistory < h.length then h.drop (h.length - maxHistory) else h

/-- `FileBrowser._add_to_history`: append the entry, then keep only the last
`max_history` entries.  The clock advances by one tick per recorded command. -/
def addToHistory (st : St) (command : String) : St :=
  { st with
    command_history := boundedHistory (st.command_history ++ [⟨command, st.clock, st.current_dir⟩])
    clock := st.clock + 1 }

/-- A command handler: from the session state and the argument string to
either a response (with the successor state) or a raised exception. -/
abbrev Handler := St → String → Except PyErr (String × St)

/-- A freshly constructed `FileBrowser` (`__init__`):
`current_dir = Config.BASE_DIR` (a `PosixPath`), empty history. -/
def initSt (baseDir : String) (fs : Fs) (host : Host) : St :=
  { base_dir := baseDir
    current_dir := PyVal.posixPath baseDir
    command_history := []
    clock := 0
    fs := fs
    host := host }

/-! ### Handlers present in `file_browser.py` -/

/-- `', '.join(...)`. -/
def joinComma (xs : List String) : String :=
  String.intercalate ", " xs

/-- `FileBrowser._help_command`.  The command table is the one of lines
155-200; the column-width arithmetic of the original formatting is not
reproduced (no claim refers to the text of the help screen). -/
def helpCommand : Handler := fun st _ =>
  .ok (String.intercalate "\n"
    ["PIXEL PUSHER OS TERMINAL",
     "General: help, about, contact, clear",
     "Date and Time: time, date, uptime",
     "File Operations: ls/dir, cd, pwd, mkdir, touch, del/rm, cat, edit, rename, properties, find",
     "System Information: sysinfo, whoami, ps, df, free",
     "Visual and Themes: color, effect, wallpaper",
     "Network: curl, ping",
     "Applications: explorer, game"], st)

/-- `FileBrowser._about_command` (the boxed ASCII art of lines 230-249 is
abbreviated; no claim refers to its text). -/
def aboutCommand : Handler := fun st _ =>
  .ok ("PIXEL PUSHER OS v2.0 - A Modern Web-Based Desktop Environment", st)

/-- `FileBrowser._contact_command` (abbreviated as for `aboutCommand`). -/
def contactCommand : Handler := fun st _ =>
  .ok ("Contact Information: support@pixelpusher.dev", st)

/-- `FileBrowser._system_info`: the whole body is wrapped in
`try/except Exception` returning `Error gathering system information: {e}`;
a successful psutil/platform query renders an information report. -/
def systemInfo : Handler := fun st _ =>
  match st.host.sysQuery with
  | .ok d =>
    .ok (String.intercalate "\n"
      ["SYSTEM INFORMATION",
       "Operating System: " ++ d.osName,
       "Platform: " ++ d.platformStr,
       "Total RAM: " ++ d.memTotal,
       "Available RAM: " ++ d.memAvailable,
       "Total Disk: " ++ d.diskTotal,
       "CPU Usage: " ++ d.cpuPercent], st)
  | .error e => .ok ("Error gathering system information: " ++ e, st)

/-- Pluralize as `f"{n} unit{'s' if n != 1 else ''}"` does. -/
def plural (n : Nat) (unit : String) : String :=
  toString n ++ " " ++ unit ++ (if n ≠ 1 then "s" else "")

/-- `FileBrowser._uptime_command`: split the uptime into days/hours/minutes
with `divmod` and list the nonzero parts; any failure of the psutil query is
caught by the bare `except` and rendered as text. -/
def uptimeCommand : Handler := fun st _ =>
  match st.host.uptimeSeconds with
  | some s =>
    let days := s / 86400
    let rem := s % 86400
    let hours := rem / 3600
    let rem2 := rem % 3600
    let minutes := rem2 / 60
    let parts := (if 0 < days then [plural days "day"] else [])
      ++ (if 0 < hours then [plural hours "hour"] else [])
      ++ (if 0 < minutes then [plural minutes "minute"] else [])
    .ok ("System uptime: " ++ joinComma parts, st)
  | none => .ok ("Unable to determine system uptime", st)

/-- `'time': lambda _: time.strftime("%H:%M:%S")`. -/
def timeCommand : Handler := fun st _ => .ok (st.host.timeStr, st)

/-- `'date': lambda _: time.strftime("%Y-%m-%d %A")`. -/
def dateCommand : Handler := fun st _ => .ok (st.host.dateStr, st)

/-- `'whoami': lambda _: os.environ.get('USER', 'pixel-pusher')`. -/
def whoamiCommand : Handler := fun st _ =>
  .ok (st.host.envUser.getD "pixel-pusher", st)

/-- `'clear': lambda _: "__CLEAR__"`. -/
def clearCommand : Handler := fun st _ => .ok ("__CLEAR__", st)

/-- `'echo': lambda arg: arg or ""`. -/
def echoCommand : Handler := fun st arg => .ok (arg, st)

/-- `'explorer': lambda _: "__EXPLORER__"`. -/
def explorerCommand : Handler := fun st _ => .ok ("__EXPLORER__", st)

/-- `FileBrowser._pwd_command`: the current directory relative to
`Config.BASE_DIR`, rendered with a leading `/`. -/
def pwdString (st : St) : String :=
  let relativePath := relpath st.current_dir.fspath st.base_dir
  if relativePath ≠ "." then "/" ++ relativePath else "/"

def pwdCommand : Handler := fun st _ => .ok (pwdString st, st)

/-- `valid_themes` of `_color_command`. -/
def validThemes : List String :=
  ["default", "blue", "green", "red", "yellow",
   "magenta", "cyan", "white", "matrix", "neon",
   "ocean", "sunset", "forest"]

/-- `FileBrowser._color_command`: empty argument gives the usage text; the
argument is lowercased and looked up in `valid_themes`; a hit yields the
`__COLOR__` signal carrying the lowercased name, a miss an unknown-theme
text echoing the original argument. -/
def colorCommand : Handler := fun st themeName =>
  if themeName = "" then
    .ok ("Available themes: " ++ joinComma validThemes ++ "\nUsage: color <theme_name>", st)
  else
    let theme := pyLower themeName
    if theme ∈ validThemes then .ok ("__COLOR__::" ++ theme, st)
    else .ok ("Unknown theme '" ++ themeName ++ "'. Available: " ++ joinComma validThemes, st)

/-- `valid_effects` of `_effect_command`. -/
def validEffects : List String := ["matrix", "rain", "stars", "snow", "particles"]

/-- `FileBrowser._effect_command` (same shape as `_color_command`). -/
def effectCommand : Handler := fun st effectName =>
  if effectName = "" then
    .ok ("Available effects: " ++ joinComma validEffects ++ "\nUsage: effect <effect_name>", st)
  else
    let effect := pyLower effectName
    if effect ∈ validEffects then .ok ("__EFFECT__::" ++ effect, st)
    else .ok ("Unknown effect '" ++ effectName ++ "'. Available: " ++ joinComma validEffects, st)

/-- `FileBrowser._wallpaper_command`: an empty argument gives the usage text;
any other argument is echoed into the `__WALLPAPER__` signal with no
validation whatsoever. -/
def wallpaperCommand : Handler := fun st filename =>
  if filename = "" then
    .ok ("Usage: wallpaper <filename>\nExample: wallpaper sunset.jpg", st)
  else
    .ok ("__WALLPAPER__::" ++ filename, st)

/-- `valid_games` of `_game_command`. -/
def validGames : List String := ["dino", "snake", "clicker", "memory"]

/-- `FileBrowser._game_command` (same shape as `_color_command`). -/
def gameCommand : Handler := fun st gameName =>
  if gameName = "" then
    .ok ("Available games: " ++ joinComma validGames ++ "\nUsage: game <game_name>", st)
  else
    let game := pyLower gameName
    if game ∈ validGames then .ok ("__GAME__::" ++ game, st)
    else .ok ("Unknown game '" ++ gameName ++ "'. Available: " ++ joinComma validGames, st)

/-- `FileBrowser._curl_command`: prefix `https://` onto scheme-less URLs,
fetch with a timeout, truncate bodies beyond 2000 characters; every network
failure is caught and rendered as text. -/
def curlCommand : Handler := fun st url =>
  if url = "" then
    .ok ("Usage: curl <url>\nExample: curl https://api.github.com", st)
  else
    let url := if ¬ (strStartsWith url "http://" ∨ strStartsWith url "https://")
               then "https://" ++ url else url
    match st.host.net url with
    | .ok content =>
      let content := if 2000 < content.length
                     then content.take 2000 ++ "\n... (content truncated)" else content
      .ok ("📡 Response from " ++ url ++ ":\n" ++ String.mk (List.replicate 40 '-') ++ "\n" ++ content, st)
    | .error e => .ok ("❌ Failed to fetch " ++ url ++ ": " ++ e, st)

/-- `FileBrowser._ping_command`: a bounded `urlopen` against the host, the
latency rendered on success; every failure is caught and rendered as text. -/
def pingCommand : Handler := fun st host =>
  if host = "" then
    .ok ("Usage: ping <hostname>\nExample: ping google.com", st)
  else
    let testUrl := if ¬ strStartsWith host "http" then "https://" ++ host else host
    match st.host.net testUrl with
    | .ok _ =>
      .ok ("✅ " ++ host ++ " is reachable (response time: " ++ toString st.host.latencyMs ++ "ms)", st)
    | .error e => .ok ("❌ " ++ host ++ " is unreachable: " ++ e, st)

/-! ### Filesystem handlers present in `file_browser.py` (ls, cd, cat) -/

/-- One line of the `_list_command` listing for entry `name` of `target`.
The `os.stat` columns (mtime, permission bits, byte-size formatting) are not
part of the model; no claim refers to them, and the listing code is
unreachable anyway because the sandbox check above it raises. -/
def listLine (fs : Fs) (target name : String) : String :=
  if isDirFs fs (target ++ "/" ++ name) then "DIR  " ++ name else "FILE " ++ name

/-- `FileBrowser._list_command`: join the path onto the current directory,
normalize, run the sandbox check (`target_dir.startswith(Config.BASE_DIR)` -
which raises `TypeError`, `Config.BASE_DIR` being a `PosixPath`), then check
existence and directory-hood and render the sorted listing, with
`(empty directory)` for an empty one. -/
def listCommand : Handler := fun st path =>
  let targetDir := if path ≠ "" then joinPath st.current_dir.fspath path else st.current_dir.fspath
  let targetDir := normpath targetDir
  match pyStartswith targetDir (configBaseDir st) with
  | .error e => .error e
  | .ok b =>
    if ¬ b then .ok ("❌ Access denied: Path outside allowed directory", st)
    else if ¬ pathExists st.fs targetDir then
      .ok ("❌ Directory not found: " ++ (if path ≠ "" then path else "."), st)
    else if ¬ isDirFs st.fs targetDir then .ok ("❌ Not a directory: " ++ path, st)
    else
      let items := (listdirSorted st.fs targetDir).map (listLine st.fs targetDir)
      let header := "📁 Contents of " ++ pwdString st
      if items ≠ [] then
        .ok (header ++ "\n" ++ String.intercalate "\n" items, st)
      else
        .ok (header ++ "\n(empty directory)", st)

/-- `FileBrowser._change_directory`: empty argument gives usage text; `..`
computes the parent and tests `parent_dir and parent_dir.startswith(Config.BASE_DIR)`
(the second conjunct raises `TypeError` whenever the parent string is
non-empty); any other argument is joined, normalized and put through the same
raising sandbox check before the existence/directory tests. -/
def changeDirectory : Handler := fun st path =>
  if path = "" then .ok ("Usage: cd <directory>\nExample: cd documents", st)
  else if path = ".." then
    let parentDir := dirname st.current_dir.fspath
    if parentDir ≠ "" then
      match pyStartswith parentDir (configBaseDir st) with
      | .error e => .error e
      | .ok b =>
        if b then
          let st' := { st with current_dir := PyVal.str parentDir }
          .ok ("📁 Changed to: " ++ pwdString st', st')
        else .ok ("❌ Already at root directory", st)
    else .ok ("❌ Already at root directory", st)
  else
    let newPath := normpath (joinPath st.current_dir.fspath path)
    match pyStartswith newPath (configBaseDir st) with
    | .error e => .error e
    | .ok b =>
      if ¬ b then .ok ("❌ Access denied: Path outside allowed directory", st)
      else if ¬ pathExists st.fs newPath then .ok ("❌ Directory not found: " ++ path, st)
      else if ¬ isDirFs st.fs newPath then .ok ("❌ Not a directory: " ++ path, st)
      else
        let st' := { st with current_dir := PyVal.str newPath }
        .ok ("📁 Changed to: " ++ pwdString st', st')

/-- `os.path.splitext(...)[1]`: the extension of the last component including
its dot (leading dots of a hidden file do not start an extension). -/
def splitextExt (s : String) : String :=
  let base := basename s
  let stem := base.data.dropWhile (· = '.')
  if stem.contains '.' then
    String.mk ('.' :: (stem.reverse.takeWhile (· ≠ '.')).reverse)
  else ""

def imageExts : List String := [".png", ".jpg", ".jpeg", ".gif", ".bmp", ".webp"]
def videoExts : List String := [".mp4", ".avi", ".mov", ".mkv", ".webm"]
def audioExts : List String := [".mp3", ".wav", ".ogg", ".m4a", ".flac"]

/-- `FileBrowser._read_file`: empty argument gives usage text; the path is
joined, normalized and put through the raising sandbox check; after the
existence/file tests, the lowercased extension dispatches to the
`__IMAGE__`/`__VIDEO__`/`__AUDIO__` signals carrying the path relative to
`Config.BASE_DIR`, and any other file is read as text, truncated beyond 5000
characters.  (Binary, non-UTF-8 content is not representable in the model's
`FsNode.file : String`; the corresponding `UnicodeDecodeError` branch is dead
here just as the whole success path is dead behind the raising check.) -/
def readFile : Handler := fun st filename =>
  if filename = "" then .ok ("Usage: cat <filename>\nExample: cat readme.txt", st)
  else
    let filePath := normpath (joinPath st.current_dir.fspath filename)
    match pyStartswith filePath (configBaseDir st) with
    | .error e => .error e
    | .ok b =>
      if ¬ b then .ok ("❌ Access denied: File outside allowed directory", st)
      else if ¬ pathExists st.fs filePath then .ok ("❌ File not found: " ++ filename, st)
      else if ¬ isFileFs st.fs filePath then .ok ("❌ Not a file: " ++ filename, st)
      else
        let ext := splitextExt (pyLower filename)
        if ext ∈ imageExts then .ok ("__IMAGE__::" ++ relpath filePath st.base_dir, st)
        else if ext ∈ videoExts then .ok ("__VIDEO__::" ++ relpath filePath st.base_dir, st)
        else if ext ∈ audioExts then .ok ("__AUDIO__::" ++ relpath filePath st.base_dir, st)
        else
          match fileContent st.fs filePath with
          | some content =>
            let content := if 5000 < content.length
                           then content.take 5000 ++ "\n... (file truncated, use editor to view full content)"
                           else content
            .ok ("📄 Content of " ++ filename ++ ":\n" ++ content, st)
          | none => .ok ("❌ Error reading file: " ++ filename, st)

/-! ### Handlers referenced by the registry but absent from the sources -/

/-- Path components of an absolute normalized path. -/
def pathParts (p : String) : List String :=
  (slashFields (normpath p)).filter (· ≠ "")

/-- Component-wise ancestry: `p` equals `root` or lies below it after
canonicalization (the specification's notion of "descendant", explicitly not
a raw string-prefix test). -/
def pathUnder (root p : String) : Bool :=
  (pathParts root).isPrefixOf (pathParts p)

/-- Modelled from the spec: the Path Resolver contract of spec section 4.2 -
empty token resolves to the current directory, `..` to the parent clamped at
the root, anything else is joined, canonicalized and admitted only when the
root is a component-wise ancestor (`none` is `AccessDenied`). -/
def specResolve (currentDir rootDir token : String) : Option String :=
  if token = "" then some currentDir
  else if token = ".." then
    (if normpath currentDir = normpath rootDir then some rootDir
     else some (dirname currentDir))
  else
    let cand := normpath (joinPath currentDir token)
    if pathUnder rootDir cand then some cand else none

/-- Modelled from the spec: `_make_directory` (`mkdir <name>`) is referenced
by the registry but its body is not in the sources; spec section 4.5 -
missing argument is an invalid-argument response, the path is resolved and
sandbox-checked, creation is idempotent. -/
def makeDirectory : Handler := fun st name =>
  if name = "" then .ok ("Usage: mkdir <name>", st)
  else
    match specResolve st.current_dir.fspath st.base_dir name with
    | none => .ok ("❌ Access denied: Path outside allowed directory", st)
    | some p =>
      if pathExists st.fs p then .ok ("Directory already exists: " ++ name, st)
      else .ok ("Directory created: " ++ name, { st with fs := st.fs ++ [(p, FsNode.dir)] })

/-- Modelled from the spec: `_create_file` (`touch <name>`), body not in the
sources; spec section 4.5 - create an empty file if absent, no-op if
present. -/
def createFile : Handler := fun st name =>
  if name = "" then .ok ("Usage: touch <file>", st)
  else
    match specResolve st.current_dir.fspath st.base_dir name with
    | none => .ok ("❌ Access denied: Path outside allowed directory", st)
    | some p =>
      if pathExists st.fs p then .ok ("File already exists: " ++ name, st)
      else .ok ("File created: " ++ name, { st with fs := st.fs ++ [(p, FsNode.file "")] })

/-- Modelled from the spec: `_delete_file` (`rm`/`del <name>`), body not in
the sources; spec section 4.5 - removes a file and explicitly refuses to
remove directories with a distinct error pointing at `rmdir`. -/
def deleteFile : Handler := fun st name =>
  if name = "" then .ok ("Usage: rm <file>", st)
  else
    match specResolve st.current_dir.fspath st.base_dir name with
    | none => .ok ("❌ Access denied: Path outside allowed directory", st)
    | some p =>
      match fsLookup st.fs p with
      | none => .ok ("❌ File not found: " ++ name, st)
      | some FsNode.dir => .ok ("❌ Cannot remove directory with rm, use rmdir: " ++ name, st)
      | some (FsNode.file _) =>
        .ok ("File deleted: " ++ name, { st with fs := st.fs.filter (·.1 ≠ p) })

/-- Modelled from the spec: `_edit_file` (`edit <file>`), body not in the
sources; the command reference lists it only as "Edit text file" - modelled
as a text response naming the file, with no interpreter state change. -/
def editFile : Handler := fun st name =>
  if name = "" then .ok ("Usage: edit <file>", st)
  else .ok ("Editing: " ++ name, st)

/-- Modelled from the spec: `_rename_file` (`rename`/`mv <old> <new>`), body
not in the sources; spec section 4.5 - the argument is re-split on whitespace
into exactly two tokens, missing either is an invalid-argument response. -/
def renameFile : Handler := fun st arg =>
  let oldName := (verbArg arg).1
  let newName := (verbArg arg).2
  if oldName = "" ∨ newName = "" then .ok ("Usage: rename <old> <new>", st)
  else
    match specResolve st.current_dir.fspath st.base_dir oldName,
          specResolve st.current_dir.fspath st.base_dir newName with
    | some po, some pn =>
      match fsLookup st.fs po with
      | none => .ok ("❌ Not found: " ++ oldName, st)
      | some node =>
        .ok ("Renamed " ++ oldName ++ " to " ++ newName,
             { st with fs := (st.fs.filter (·.1 ≠ po)) ++ [(pn, node)] })
    | _, _ => .ok ("❌ Access denied: Path outside allowed directory", st)

/-- Modelled from the spec: `_file_properties` (`properties <item>`), body
not in the sources; spec section 4.5 - a report operation; a missing item is
a not-found text, never an exception. -/
def fileProperties : Handler := fun st name =>
  if name = "" then .ok ("Usage: properties <item>", st)
  else
    match specResolve st.current_dir.fspath st.base_dir name with
    | none => .ok ("❌ Access denied: Path outside allowed directory", st)
    | some p =>
      match fsLookup st.fs p with
      | none => .ok ("❌ Not found: " ++ name, st)
      | some FsNode.dir => .ok ("Type: directory\nName: " ++ basename p, st)
      | some (FsNode.file c) =>
        .ok ("Type: file\nName: " ++ basename p ++ "\nSize: " ++ toString c.length, st)

/-- Containment of `needle` as a contiguous sublist of `hay` (Python's
`needle in haystack` on strings). -/
def listContainsSub (needle : List Char) : List Char → Bool
  | [] => needle.isPrefixOf []
  | c :: rest => needle.isPrefixOf (c :: rest) || listContainsSub needle rest

/-- Modelled from the spec: `_find_files` (`find <pattern>`), body not in the
sources; spec section 4.5 - a query whose non-matching pattern returns an
explicit no-matches response, not an error. -/
def findFiles : Handler := fun st pattern =>
  if pattern = "" then .ok ("Usage: find <pattern>", st)
  else
    let hits := st.fs.filterMap (fun pr =>
      if listContainsSub pattern.data (basename pr.1).data ∧ pathUnder st.base_dir pr.1
      then some pr.1 else none)
    if hits = [] then .ok ("No matches found: " ++ pattern, st)
    else .ok (String.intercalate "\n" hits, st)

/-- Render a host report, spec section 4.6: OS-query errors are caught and
turned into a degraded-but-successful text response. -/
def renderReport (r : Except String String) : String :=
  match r with
  | .ok t => t
  | .error e => "Information unavailable: " ++ e

/-- Modelled from the spec: `_process_list` (`ps`), body not in the sources;
spec section 4.6 - a read-only host query that never mutates state and never
raises. -/
def processList : Handler := fun st _ => .ok (renderReport st.host.psReport, st)

/-- Modelled from the spec: `_kill_process` (`kill <pid>`) appears only in
the command reference ("Terminate process"); modelled as a host query
rendered as text, never raising. -/
def killProcess : Handler := fun st _ => .ok (renderReport st.host.killReport, st)

/-- Modelled from the spec: `_disk_usage` (`df`), body not in the sources;
spec section 4.6 - as for `ps`. -/
def diskUsage : Handler := fun st _ => .ok (renderReport st.host.dfReport, st)

/-- Modelled from the spec: `_memory_info` (`free`), body not in the sources;
spec section 4.6 - as for `ps`. -/
def memoryInfo : Handler := fun st _ => .ok (renderReport st.host.freeReport, st)

/-! ### The verb registry and the public `execute` -/

/-- The `command_handlers` dict of `FileBrowser.execute` (lines 77-129), as a
lookup by verb.  Keys in the dict's order. -/
def lookupHandler (action : String) : Option Handler :=
  if action = "help" then some helpCommand
  else if action = "menu" then some helpCommand
  else if action = "about" then some aboutCommand
  else if action = "contact" then some contactCommand
  else if action = "sysinfo" then some systemInfo
  else if action = "time" then some timeCommand
  else if action = "date" then some dateCommand
  else if action = "uptime" then some uptimeCommand
  else if action = "whoami" then some whoamiCommand
  else if action = "clear" then some clearCommand
  else if action = "echo" then some echoCommand
  else if action = "pwd" then some pwdCommand
  else if action = "color" then some colorCommand
  else if action = "effect" then some effectCommand
  else if action = "wallpaper" then some wallpaperCommand
  else if action = "curl" then some curlCommand
  else if action = "ping" then some pingCommand
  else if action = "explorer" then some explorerCommand
  else if action = "game" then some gameCommand
  else if action = "ls" then some listCommand
  else if action = "dir" then some listCommand
  else if action = "cd" then some changeDirectory
  else if action = "mkdir" then some makeDirectory
  else if action = "touch" then some createFile
  else if action = "del" then some deleteFile
  else if action = "rm" then some deleteFile
  else if action = "cat" then some readFile
  else if action = "edit" then some editFile
  else if action = "rename" then some renameFile
  else if action = "mv" then some renameFile
  else if action = "properties" then some fileProperties
  else if action = "find" then some findFiles
  else if action = "ps" then some processList
  else if action = "kill" then some killProcess
  else if action = "df" then some diskUsage
  else if action = "free" then some memoryInfo
  else none

/-- The verbs of the registry. -/
def registryVerbs : List String :=
  ["help", "menu", "about", "contact", "sysinfo", "time", "date", "uptime",
   "whoami", "clear", "echo", "pwd", "color", "effect", "wallpaper", "curl",
   "ping", "explorer", "game", "ls", "dir", "cd", "mkdir", "touch", "del",
   "rm", "cat", "edit", "rename", "mv", "properties", "find", "ps", "kill",
   "df", "free"]

/-- The not-found response of `execute` for an unknown verb. -/
def notFoundMsg (action : String) : String :=
  "Command '" ++ action ++ "' not found. Type 'help' for available commands."

/-- `FileBrowser.execute` (lines 49-139): strip; empty input returns `""`;
record the stripped command in the history; split into verb and argument,
lowercase the verb; dispatch through the registry inside
`try/except Exception` (a raised handler exception becomes the text
`Error executing '<verb>': <message>`); an unknown verb gets the not-found
text.  An `.error` result would be an exception escaping `execute`; the
theorems show there is none. -/
def execute (st : St) (raw : String) : Except PyErr (String × St) :=
  let command := pyStrip raw
  if command = "" then .ok ("", st)
  else
    let st1 := addToHistory st command
    let va := verbArg command
    let action := pyLower va.1
    match lookupHandler action with
    | some handler =>
      match handler st1 va.2 with
      | .ok r => .ok r
      | .error e => .ok ("Error executing '" ++ action ++ "': " ++ e.msg, st1)
    | none => .ok (notFoundMsg action, st1)

/-- The successor session state of one `execute` call (the `.error` fallback
is never taken; see the no-escape theorem). -/
def runStep (st : St) (raw : String) : St :=
  match execute st raw with
  | .ok (_, st') => st'
  | .error _ => st

/-- The response text of one `execute` call (same remark). -/
def outputOf (st : St) (raw : String) : String :=
  match execute st raw with
  | .ok (out, _) => out
  | .error e => e.msg

/-- Execute a whole command sequence from a state. -/
def run (st : St) (cs : List String) : St :=
  cs.foldl runStep st

/-- The sentinel tokens of the wire protocol, as routes/api.py tests them
(lines 56-80). -/
def sentinels : List String :=
  ["__CLEAR__", "__COLOR__::", "__EFFECT__::", "__WALLPAPER__::",
   "__EXPLORER__", "__GAME__::", "__IMAGE__::", "__VIDEO__::", "__AUDIO__::"]

/-- A response is a signal when it begins with a sentinel token - the
discriminator the caller layer uses (routes/api.py). -/
def isSignal (s : String) : Bool :=
  sentinels.any (fun t => strStartsWith s t)

/-! ### Handler preservation lemmas

Every handler leaves the session's core fields alone on every successful
return: the current directory, the configured base directory, the history and
the clock.  (Only `_change_directory` has code meant to move `current_dir`,
and both of its assignment sites sit behind the raising sandbox check.) -/

def PreservesCore (h : Handler) : Prop :=
  ∀ st arg out st', h st arg = .ok (out, st') →
    st'.current_dir = st.current_dir ∧ st'.base_dir = st.base_dir ∧
    st'.command_history = st.command_history ∧ st'.clock = st.clock

theorem helpCommand_preserves : PreservesCore helpCommand := by
  intro st arg out st' h
  simp only [helpCommand, Except.ok.injEq, Prod.mk.injEq] at h
  rw [← h.2]
  exact ⟨rfl, rfl, rfl, rfl⟩

theorem aboutCommand_preserves : PreservesCore aboutCommand := by
  intro st arg out st' h
  injection h with h1
  injection h1 with ha hb
  subst hb
  exact ⟨rfl, rfl, rfl, rfl⟩

theorem contactCommand_preserves : PreservesCore contactCommand := by
  intro st arg out st' h
  injection h with h1
  injection h1 with ha hb
  subst hb
  exact ⟨rfl, rfl, rfl, rfl⟩

theorem systemInfo_preserves : PreservesCore systemInfo := by
  intro st arg out st' h
  simp only [systemInfo] at h
  split at h <;>
    (injection h with h1; injection h1 with ha hb; subst hb; exact ⟨rfl, rfl, rfl, rfl⟩)

theorem uptimeCommand_preserves : PreservesCore uptimeCommand := by
  intro st arg out st' h
  simp only [uptimeCommand] at h
  split at h <;>
    (injection h with h1; injection h1 with ha hb; subst hb; exact ⟨rfl, rfl, rfl, rfl⟩)

theorem timeCommand_preserves : PreservesCore timeCommand := by
  intro st arg out st' h
  injection h with h1
  injection h1 with ha hb
  subst hb
  exact ⟨rfl, rfl, rfl, rfl⟩

theorem dateCommand_preserves : PreservesCore dateCommand := by
  intro st arg out st' h
  injection h with h1
  injection h1 with ha hb
  subst hb
  exact ⟨rfl, rfl, rfl, rfl⟩

theorem whoamiCommand_preserves : PreservesCore whoamiCommand := by
  intro st arg out st' h
  injection h with h1
  injection h1 with ha hb
  subst hb
  exact ⟨rfl, rfl, rfl, rfl⟩

theorem clearCommand_preserves : PreservesCore clearCommand := by
  intro st arg out st' h
  injection h with h1
  injection h1 with ha hb
  subst hb
  exact ⟨rfl, rfl, rfl, rfl⟩

theorem echoCommand_preserves : PreservesCore echoCommand := by
  intro st arg out st' h
  injection h with h1
  injection h1 with ha hb
  subst hb
  exact ⟨rfl, rfl, rfl, rfl⟩

theorem explorerCommand_preserves : PreservesCore explorerCommand := by
  intro st arg out st' h
  injection h with h1
  injection h1 with ha hb
  subst hb
  exact ⟨rfl, rfl, rfl, rfl⟩

theorem pwdCommand_preserves : PreservesCore pwdCommand := by
  intro st arg out st' h
  injection h with h1
  injection h1 with ha hb
  subst hb
  exact ⟨rfl, rfl, rfl, rfl⟩

theorem colorCommand_preserves : PreservesCore colorCommand := by
  intro st arg out st' h
  simp only [colorCommand] at h
  repeat' split at h
  all_goals (injection h with h1; injection h1 with ha hb; subst hb; exact ⟨rfl, rfl, rfl, rfl⟩)

theorem effectCommand_preserves : PreservesCore effectCommand := by
  intro st arg out st' h
  simp only [effectCommand] at h
  repeat' split at h
  all_goals (injection h with h1; injection h1 with ha hb; subst hb; exact ⟨rfl, rfl, rfl, rfl⟩)

theorem wallpaperCommand_preserves : PreservesCore wallpaperCommand := by
  intro st arg out st' h
  simp only [wallpaperCommand] at h
  repeat' split at h
  all_goals (injection h with h1; injection h1 with ha hb; subst hb; exact ⟨rfl, rfl, rfl, rfl⟩)

theorem gameCommand_preserves : PreservesCore gameCommand := by
  intro st arg out st' h
  simp only [gameCommand] at h
  repeat' split at h
  all_goals (injection h with h1; injection h1 with ha hb; subst hb; exact ⟨rfl, rfl, rfl, rfl⟩)

theorem curlCommand_preserves : PreservesCore curlCommand := by
  intro st arg out st' h
  simp only [curlCommand] at h
  repeat' split at h
  all_goals (injection h with h1; injection h1 with ha hb; subst hb; exact ⟨rfl, rfl, rfl, rfl⟩)

theorem pingCommand_preserves : PreservesCore pingCommand := by
  intro st arg out st' h
  simp only [pingCommand] at h
  repeat' split at h
  all_goals (injection h with h1; injection h1 with ha hb; subst hb; exact ⟨rfl, rfl, rfl, rfl⟩)

theorem listCommand_preserves : PreservesCore listCommand := by
  intro st arg out st' h
  simp only [listCommand, configBaseDir, pyStartswith] at h
  repeat' split at h
  all_goals first
    | (injection h with h1; injection h1 with ha hb; subst hb; exact ⟨rfl, rfl, rfl, rfl⟩)
    | exact absurd h (by simp)

theorem changeDirectory_preserves : PreservesCore changeDirectory := by
  intro st arg out st' h
  simp only [changeDirectory, configBaseDir, pyStartswith] at h
  repeat' split at h
  all_goals first
    | (injection h with h1; injection h1 with ha hb; subst hb; exact ⟨rfl, rfl, rfl, rfl⟩)
    | exact absurd h (by simp)

theorem readFile_preserves : PreservesCore readFile := by
  intro st arg out st' h
  simp only [readFile, configBaseDir, pyStartswith] at h
  repeat' split at h
  all_goals first
    | (injection h with h1; injection h1 with ha hb; subst hb; exact ⟨rfl, rfl, rfl, rfl⟩)
    | exact absurd h (by simp)

theorem makeDirectory_preserves : PreservesCore makeDirectory := by
  intro st arg out st' h
  simp only [makeDirectory] at h
  repeat' split at h
  all_goals (injection h with h1; injection h1 with ha hb; subst hb; exact ⟨rfl, rfl, rfl, rfl⟩)

theorem createFile_preserves : PreservesCore createFile := by
  intro st arg out st' h
  simp only [createFile] at h
  repeat' split at h
  all_goals (injection h with h1; injection h1 with ha hb; subst hb; exact ⟨rfl, rfl, rfl, rfl⟩)

theorem deleteFile_preserves : PreservesCore deleteFile := by
  intro st arg out st' h
  simp only [deleteFile] at h
  repeat' split at h
  all_goals (injection h with h1; injection h1 with ha hb; subst hb; exact ⟨rfl, rfl, rfl, rfl⟩)

theorem editFile_preserves : PreservesCore editFile := by
  intro st arg out st' h
  simp only [editFile] at h
  repeat' split at h
  all_goals (injection h with h1; injection h1 with ha hb; subst hb; exact ⟨rfl, rfl, rfl, rfl⟩)

theorem renameFile_preserves : PreservesCore renameFile := by
  intro st arg out st' h
  simp only [renameFile] at h
  repeat' split at h
  all_goals (injection h with h1; injection h1 with ha hb; subst hb; exact ⟨rfl, rfl, rfl, rfl⟩)

theorem fileProperties_preserves : PreservesCore fileProperties := by
  intro st arg out st' h
  simp only [fileProperties] at h
  repeat' split at h
  all_goals (injection h with h1; injection h1 with ha hb; subst hb; exact ⟨rfl, rfl, rfl, rfl⟩)

theorem findFiles_preserves : PreservesCore findFiles := by
  intro st arg out st' h
  simp only [findFiles] at h
  repeat' split at h
  all_goals (injection h with h1; injection h1 with ha hb; subst hb; exact ⟨rfl, rfl, rfl, rfl⟩)

theorem processList_preserves : PreservesCore processList := by
  intro st arg out st' h
  injection h with h1
  injection h1 with ha hb
  subst hb
  exact ⟨rfl, rfl, rfl, rfl⟩

theorem killProcess_preserves : PreservesCore killProcess := by
  intro st arg out st' h
  injection h with h1
  injection h1 with ha hb
  subst hb
  exact ⟨rfl, rfl, rfl, rfl⟩

theorem diskUsage_preserves : PreservesCore diskUsage := by
  intro st arg out st' h
  injection h with h1
  injection h1 with ha hb
  subst hb
  exact ⟨rfl, rfl, rfl, rfl⟩

theorem memoryInfo_preserves : PreservesCore memoryInfo := by
  intro st arg out st' h
  injection h with h1
  injection h1 with ha hb
  subst hb
  exact ⟨rfl, rfl, rfl, rfl⟩

/-- Case split on an `if` in an equality hypothesis, without `simp`. -/
theorem ite_eq_cases {c : Prop} [Decidable c] {a : Type} {x y z : a}
    (h : (if c then x else y) = z) : x = z ∨ y = z := by
  by_cases hc : c
  · rw [if_pos hc] at h
    exact Or.inl h
  · rw [if_neg hc] at h
    exact Or.inr h

/-- Every handler the registry can return preserves the session's core
fields. -/
theorem lookupHandler_preserves (action : String) (h : Handler)
    (hl : lookupHandler action = some h) : PreservesCore h := by
  unfold lookupHandler at hl
  rcases ite_eq_cases hl with he | hl
  · injection he with e
    subst e
    exact helpCommand_preserves
  rcases ite_eq_cases hl with he | hl
  · injection he with e
    subst e
    exact helpCommand_preserves
  rcases ite_eq_cases hl with he | hl
  · injection he with e
    subst e
    exact aboutCommand_preserves
  rcases ite_eq_cases hl with he | hl
  · injection he with e
    subst e
    exact contactCommand_preserves
  rcases ite_eq_cases hl with he | hl
  · injection he with e
    subst e
    exact systemInfo_preserves
  rcases ite_eq_cases hl with he | hl
  · injection he with e
    subst e
    exact timeCommand_preserves
  rcases ite_eq_cases hl with he | hl
  · injection he with e
    subst e
    exact dateCommand_preserves
  rcases ite_eq_cases hl with he | hl
  · injection he with e
    subst e
    exact uptimeCommand_preserves
  rcases ite_eq_cases hl with he | hl
  · injection he with e
    subst e
    exact whoamiCommand_preserves
  rcases ite_eq_cases hl with he | hl
  · injection he with e
    subst e
    exact clearCommand_preserves
  rcases ite_eq_cases hl with he | hl
  · injection he with e
    subst e
    exact echoCommand_preserves
  rcases ite_eq_cases hl with he | hl
  · injection he with e
    subst e
    exact pwdCommand_preserves
  rcases ite_eq_cases hl with he | hl
  · injection he with e
    subst e
    exact colorCommand_preserves
  rcases ite_eq_cases hl with he | hl
  · injection he with e
    subst e
    exact effectCommand_preserves
  rcases ite_eq_cases hl with he | hl
  · injection he with e
    subst e
    exact wallpaperCommand_preserves
  rcases ite_eq_cases hl with he | hl
  · injection he with e
    subst e
    exact curlCommand_preserves
  rcases ite_eq_cases hl with he | hl
  · injection he with e
    subst e
    exact pingCommand_preserves
  rcases ite_eq_cases hl with he | hl
  · injection he with e
    subst e
    exact explorerCommand_preserves
  rcases ite_eq_cases hl with he | hl
  · injection he with e
    subst e
    exact gameCommand_preserves
  rcases ite_eq_cases hl with he | hl
  · injection he with e
    subst e
    exact listCommand_preserves
  rcases ite_eq_cases hl with he | hl
  · injection he with e
    subst e
    exact listCommand_preserves
  rcases ite_eq_cases hl with he | hl
  · injection he with e
    subst e
    exact changeDirectory_preserves
  rcases ite_eq_cases hl with he | hl
  · injection he with e
    subst e
    exact makeDirectory_preserves
  rcases ite_eq_cases hl with he | hl
  · injection he with e
    subst e
    exact createFile_preserves
  rcases ite_eq_cases hl with he | hl
  · injection he with e
    subst e
    exact deleteFile_preserves
  rcases ite_eq_cases hl with he | hl
  · injection he with e
    subst e
    exact deleteFile_preserves
  rcases ite_eq_cases hl with he | hl
  · injection he with e
    subst e
    exact readFile_preserves
  rcases ite_eq_cases hl with he | hl
  · injection he with e
    subst e
    exact editFile_preserves
  rcases ite_eq_cases hl with he | hl
  · injection he with e
    subst e
    exact renameFile_preserves
  rcases ite_eq_cases hl with he | hl
  · injection he with e
    subst e
    exact renameFile_preserves
  rcases ite_eq_cases hl with he | hl
  · injection he with e
    subst e
    exact fileProperties_preserves
  rcases ite_eq_cases hl with he | hl
  · injection he with e
    subst e
    exact findFiles_preserves
  rcases ite_eq_cases hl with he | hl
  · injection he with e
    subst e
    exact processList_preserves
  rcases ite_eq_cases hl with he | hl
  · injection he with e
    subst e
    exact killProcess_preserves
  rcases ite_eq_cases hl with he | hl
  · injection he with e
    subst e
    exact diskUsage_preserves
  rcases ite_eq_cases hl with he | hl
  · injection he with e
    subst e
    exact memoryInfo_preserves
  exact Option.noConfusion hl

/-! ### Facts about one `execute` step -/

/-- A whitespace-only line is a no-op: empty response, state untouched. -/
theorem execute_empty (st : St) (raw : String) (h : pyStrip raw = "") :
    execute st raw = .ok ("", st) := by
  simp only [execute, h, if_pos]

/-- The verb of a non-empty stripped line, as `execute` computes it. -/
def actionOf (raw : String) : String :=
  pyLower (verbArg (pyStrip raw)).1

/-- The argument of a non-empty stripped line, as `execute` computes it. -/
def argumentOf (raw : String) : String :=
  (verbArg (pyStrip raw)).2

/-- `execute` on a known verb whose handler returns normally. -/
theorem execute_handler_ok (st : St) (raw : String) (hne : pyStrip raw ≠ "")
    (handler : Handler) (hl : lookupHandler (actionOf raw) = some handler)
    (out : String) (st' : St)
    (hh : handler (addToHistory st (pyStrip raw)) (argumentOf raw) = .ok (out, st')) :
    execute st raw = .ok (out, st') := by
  simp only [execute, if_neg hne]
  rw [show pyLower (verbArg (pyStrip raw)).1 = actionOf raw from rfl, hl]
  simp only [show (verbArg (pyStrip raw)).2 = argumentOf raw from rfl, hh]

/-- `execute` on a known verb whose handler raises: the `try/except` turns
the exception into the error text, and the state keeps the history update
made before dispatch. -/
theorem execute_handler_err (st : St) (raw : String) (hne : pyStrip raw ≠ "")
    (handler : Handler) (hl : lookupHandler (actionOf raw) = some handler)
    (e : PyErr)
    (hh : handler (addToHistory st (pyStrip raw)) (argumentOf raw) = .error e) :
    execute st raw =
      .ok ("Error executing '" ++ actionOf raw ++ "': " ++ e.msg, addToHistory st (pyStrip raw)) := by
  simp only [execute, if_neg hne]
  rw [show pyLower (verbArg (pyStrip raw)).1 = actionOf raw from rfl, hl]
  simp only [show (verbArg (pyStrip raw)).2 = argumentOf raw from rfl, hh]

/-- `execute` on an unknown verb: the not-found text, with the history
update made before dispatch. -/
theorem execute_unknown_verb (st : St) (raw : String) (hne : pyStrip raw ≠ "")
    (hl : lookupHandler (actionOf raw) = none) :
    execute st raw = .ok (notFoundMsg (actionOf raw), addToHistory st (pyStrip raw)) := by
  simp only [execute, if_neg hne]
  rw [show pyLower (verbArg (pyStrip raw)).1 = actionOf raw from rfl, hl]

theorem addToHistory_current_dir (st : St) (c : String) :
    (addToHistory st c).current_dir = st.current_dir := rfl

theorem addToHistory_base_dir (st : St) (c : String) :
    (addToHistory st c).base_dir = st.base_dir := rfl

/-- One `execute` step never moves the current directory and never touches
the configured base directory. -/
theorem runStep_core (st : St) (raw : String) :
    (runStep st raw).current_dir = st.current_dir ∧ (runStep st raw).base_dir = st.base_dir := by
  by_cases he : pyStrip raw = ""
  · rw [runStep, execute_empty st raw he]
    exact ⟨rfl, rfl⟩
  · cases hl : lookupHandler (actionOf raw) with
    | none =>
      rw [runStep, execute_unknown_verb st raw he hl]
      exact ⟨rfl, rfl⟩
    | some handler =>
      cases hh : handler (addToHistory st (pyStrip raw)) (argumentOf raw) with
      | error e =>
        rw [runStep, execute_handler_err st raw he handler hl e hh]
        exact ⟨rfl, rfl⟩
      | ok r =>
        rw [runStep, execute_handler_ok st raw he handler hl r.1 r.2 (by rw [hh])]
        obtain ⟨h1, h2, h3, h4⟩ :=
          lookupHandler_preserves _ _ hl (addToHistory st (pyStrip raw))
            (argumentOf raw) r.1 r.2 (by rw [hh])
        exact ⟨h1, h2⟩

/-! ### The history ring buffer -/

/-- Appending one command to a bounded history of raw command strings
(the command-text shadow of `_add_to_history`). -/
def clampApp (acc : List String) (c : String) : List String :=
  let h := acc ++ [c]
  if maxHistory < h.length then h.drop (h.length - maxHistory) else h

theorem runStep_history (st : St) (raw : String) (hne : pyStrip raw ≠ "") :
    (runStep st raw).command_history = (addToHistory st (pyStrip raw)).command_history ∧
    (runStep st raw).clock = st.clock + 1 := by
  cases hl : lookupHandler (actionOf raw) with
  | none =>
    rw [runStep, execute_unknown_verb st raw hne hl]
    exact ⟨rfl, rfl⟩
  | some handler =>
    cases hh : handler (addToHistory st (pyStrip raw)) (argumentOf raw) with
    | error e =>
      rw [runStep, execute_handler_err st raw hne handler hl e hh]
      exact ⟨rfl, rfl⟩
    | ok r =>
      rw [runStep, execute_handler_ok st raw hne handler hl r.1 r.2 (by rw [hh])]
      obtain ⟨h1, h2, h3, h4⟩ :=
        lookupHandler_preserves _ _ hl (addToHistory st (pyStrip raw))
          (argumentOf raw) r.1 r.2 (by rw [hh])
      exact ⟨h3, h4⟩

/-- The entry appended by `_add_to_history`, projected to its command text:
the bounded-append shape. -/
theorem addToHistory_history_map (st : St) (c : String) :
    (addToHistory st c).command_history.map HistEntry.command =
      clampApp (st.command_history.map HistEntry.command) c := by
  simp only [addToHistory, boundedHistory, clampApp, List.length_append, List.length_map,
    List.length_cons, List.length_nil]
  split <;> simp [List.map_drop, List.map_append]

/-- The command texts recorded by one non-empty step follow the `clampApp`
shape. -/
theorem runStep_history_map (st : St) (raw : String) (hne : pyStrip raw ≠ "") :
    (runStep st raw).command_history.map HistEntry.command =
      clampApp (st.command_history.map HistEntry.command) (pyStrip raw) := by
  rw [(runStep_history st raw hne).1, addToHistory_history_map]

/-- Folding `clampApp` over a command list from a short-enough accumulator:
the result is the tail of the concatenation, of length `min (n + k) N`. -/
theorem clampApp_foldl (cs : List String) : ∀ acc : List String, acc.length ≤ maxHistory →
    cs.foldl clampApp acc = (acc ++ cs).drop (acc.length + cs.length - maxHistory) ∧
    (cs.foldl clampApp acc).length = min (acc.length + cs.length) maxHistory := by
  induction cs with
  | nil =>
    intro acc hle
    refine ⟨?_, ?_⟩
    · rw [List.foldl_nil, List.append_nil, List.length_nil,
        show acc.length + 0 - maxHistory = 0 from by omega, List.drop_zero]
    · rw [List.foldl_nil, List.length_nil]
      omega
  | cons c cs' ih =>
    intro acc hle
    rw [List.foldl_cons]
    have hlen1 : (clampApp acc c).length ≤ maxHistory := by
      simp only [clampApp, List.length_append, List.length_cons, List.length_nil]
      split <;>
        simp only [List.length_drop, List.length_append, List.length_cons, List.length_nil] <;>
        omega
    obtain ⟨ihEq, ihLen⟩ := ih (clampApp acc c) hlen1
    by_cases hfull : maxHistory < acc.length + 1
    · have hacc : acc.length = maxHistory := by omega
      have hclamp : clampApp acc c = (acc ++ [c]).drop 1 := by
        simp only [clampApp, List.length_append, List.length_cons, List.length_nil]
        rw [if_pos (by omega), show acc.length + 1 - maxHistory = 1 from by omega]
      have hL : ((acc ++ [c]).drop 1).length = acc.length := by
        simp only [List.length_drop, List.length_append, List.length_cons, List.length_nil]
        omega
      refine ⟨?_, ?_⟩
      · rw [ihEq, hclamp, hL]
        rw [← @List.drop_append_of_le_length String (acc ++ [c]) cs' 1
          (show 1 ≤ (acc ++ [c]).length from by simp)]
        rw [List.drop_drop, List.append_assoc, List.singleton_append, List.length_cons]
        congr 1
        omega
      · rw [ihLen, hclamp, hL, List.length_cons]
        omega
    · have hclamp : clampApp acc c = acc ++ [c] := by
        simp only [clampApp, List.length_append, List.length_cons, List.length_nil]
        rw [if_neg (by omega)]
      refine ⟨?_, ?_⟩
      · rw [ihEq, hclamp, List.append_assoc, List.singleton_append, List.length_cons,
          List.length_append, List.length_cons, List.length_nil]
        congr 1
        omega
      · rw [ihLen, hclamp, List.length_append, List.length_cons, List.length_nil,
          List.length_cons]
        omega

/-- Across any command sequence, the current directory and the configured
base directory never change. -/
theorem run_core (cs : List String) : ∀ st : St,
    (run st cs).current_dir = st.current_dir ∧ (run st cs).base_dir = st.base_dir := by
  induction cs with
  | nil => exact fun st => ⟨rfl, rfl⟩
  | cons c cs' ih =>
    intro st
    obtain ⟨e1, e2⟩ := ih (runStep st c)
    obtain ⟨s1, s2⟩ := runStep_core st c
    rw [run, List.foldl_cons]
    exact ⟨by rw [show List.foldl runStep (runStep st c) cs' = run (runStep st c) cs' from rfl,
                e1, s1],
           by rw [show List.foldl runStep (runStep st c) cs' = run (runStep st c) cs' from rfl,
                e2, s2]⟩

/-- Across a sequence of non-blank commands, the recorded command texts are
the `clampApp`-fold of the stripped commands. -/
theorem run_history_fold (cs : List String) : ∀ st : St, (∀ c ∈ cs, pyStrip c ≠ "") →
    (run st cs).command_history.map HistEntry.command =
      (cs.map pyStrip).foldl clampApp (st.command_history.map HistEntry.command) := by
  induction cs with
  | nil => exact fun st _ => rfl
  | cons c cs' ih =>
    intro st h
    rw [run, List.foldl_cons, List.map_cons, List.foldl_cons,
      show List.foldl runStep (runStep st c) cs' = run (runStep st c) cs' from rfl,
      ih (runStep st c) (fun x hx => h x (List.mem_cons_of_mem c hx)),
      runStep_history_map st c (h c (List.mem_cons_self c cs'))]

/-! ### Signal discrimination -/

/-- A sentinel (which starts with `'_'`) is never a prefix of a string whose
first character differs from `'_'`. -/
theorem not_prefix_of_head_ne (t : String) (c : Char) (rest : List Char)
    (ht : t.data.head? = some '_') (hc : c ≠ '_') :
    t.data.isPrefixOf (c :: rest) = false := by
  cases hd : t.data with
  | nil => rw [hd] at ht; exact absurd ht (by simp)
  | cons a as =>
    rw [hd] at ht
    have ha : a = '_' := by
      simpa using ht
    subst ha
    rw [List.isPrefixOf_cons₂]
    have hbe : ('_' == c) = false := by
      simp [Ne.symm hc]
    rw [hbe, Bool.false_and]

/-- A string whose first character is not `'_'` is not a signal. -/
theorem isSignal_head_ne (c : Char) (rest : List Char) (hc : c ≠ '_') :
    isSignal ⟨c :: rest⟩ = false := by
  have hdata : (⟨c :: rest⟩ : String).data = c :: rest := rfl
  simp only [isSignal, sentinels, List.any_cons, List.any_nil, strStartsWith, hdata]
  rw [not_prefix_of_head_ne "__CLEAR__" c rest (by decide) hc,
    not_prefix_of_head_ne "__COLOR__::" c rest (by decide) hc,
    not_prefix_of_head_ne "__EFFECT__::" c rest (by decide) hc,
    not_prefix_of_head_ne "__WALLPAPER__::" c rest (by decide) hc,
    not_prefix_of_head_ne "__EXPLORER__" c rest (by decide) hc,
    not_prefix_of_head_ne "__GAME__::" c rest (by decide) hc,
    not_prefix_of_head_ne "__IMAGE__::" c rest (by decide) hc,
    not_prefix_of_head_ne "__VIDEO__::" c rest (by decide) hc,
    not_prefix_of_head_ne "__AUDIO__::" c rest (by decide) hc]
  rfl

/-- A string continuing a literal that does not start with `'_'` is not a
signal. -/
theorem isSignal_append_ne (pre s : String) (c : Char) (cs : List Char)
    (hpre : pre.data = c :: cs) (hc : c ≠ '_') :
    isSignal (pre ++ s) = false := by
  have : (pre ++ s) = ⟨c :: (cs ++ s.data)⟩ := by
    apply String.ext
    rw [String.data_append, hpre]
    rfl
  rw [this]
  exact isSignal_head_ne _ _ hc

/-! ### dirname of an absolute path is non-empty -/

theorem takeUptoLastSlash_none_not_mem : ∀ cs : List Char,
    takeUptoLastSlash cs = none → '/' ∉ cs := by
  intro cs
  induction cs with
  | nil => intro _ h; exact absurd h (List.not_mem_nil '/')
  | cons c rest ih =>
    intro h hm
    rw [takeUptoLastSlash] at h
    cases ht : takeUptoLastSlash rest with
    | some t => rw [ht] at h; exact Option.noConfusion h
    | none =>
      rw [ht] at h
      by_cases hcs : c = '/'
      · rw [if_pos hcs] at h; exact Option.noConfusion h
      · rcases List.mem_cons.mp hm with he | hm'
        · exact hcs he.symm
        · exact ih ht hm'

theorem takeUptoLastSlash_of_mem : ∀ cs : List Char, '/' ∈ cs →
    ∃ head, takeUptoLastSlash cs = some head ∧ head ≠ [] := by
  intro cs
  induction cs with
  | nil => intro h; exact absurd h (List.not_mem_nil '/')
  | cons c rest ih =>
    intro hm
    rw [takeUptoLastSlash]
    cases ht : takeUptoLastSlash rest with
    | some t => exact ⟨c :: t, rfl, by simp⟩
    | none =>
      have hc : c = '/' := by
        rcases List.mem_cons.mp hm with he | hm'
        · exact he.symm
        · exact absurd hm' (takeUptoLastSlash_none_not_mem rest ht)
      refine ⟨['/'], ?_, by simp⟩
      show (if c = '/' then some [c] else none) = some ['/']
      rw [if_pos hc, hc]

theorem mk_ne_empty_of_ne_nil (cs : List Char) (h : cs ≠ []) : (⟨cs⟩ : String) ≠ "" := by
  intro he
  exact h (congrArg String.data he)

/-- `os.path.dirname` of a path that starts with `/` is never the empty
string (so the truthiness test `if parent_dir` in `_change_directory` always
passes for the absolute `current_dir`). -/
theorem dirname_ne_empty (p : String) (h : strStartsWith p "/" = true) : dirname p ≠ "" := by
  have hmem : '/' ∈ p.data := by
    have hpre : (("/" : String).data).isPrefixOf p.data = true := h
    rw [ List.isPrefixOf_iff_prefix] at hpre
    obtain ⟨t, ht⟩ := hpre
    rw [show ("/" : String).data = ['/'] from rfl] at ht
    rw [← ht]
    exact List.mem_append_left t (by simp)
  obtain ⟨head, hh, hne⟩ := takeUptoLastSlash_of_mem p.data hmem
  have hd : dirname p =
      if (head.all fun x => decide (x = '/')) = true then (⟨head⟩ : String)
      else ⟨rstripSlashes head⟩ := by
    rw [dirname, hh]
  rw [hd]
  by_cases hall : (head.all fun x => decide (x = '/')) = true
  · rw [if_pos hall]
    exact mk_ne_empty_of_ne_nil head hne
  · rw [if_neg hall]
    apply mk_ne_empty_of_ne_nil
    rw [rstripSlashes]
    simp only [ne_eq, List.reverse_eq_nil_iff]
    rw [List.dropWhile_eq_nil_iff]
    push_neg
    rw [Bool.not_eq_true] at hall
    rw [List.all_eq_false] at hall
    obtain ⟨x, hx, hxne⟩ := hall
    exact ⟨x, List.mem_reverse.mpr hx, fun hcontra => hxne (by simpa using hcontra)⟩

/-! ### The sandbox checks of cd/ls/cat always raise `TypeError` -/

/-- `_change_directory` on `..` from an absolute directory: the clamp test
`parent_dir.startswith(Config.BASE_DIR)` raises, because `Config.BASE_DIR`
is a `PosixPath`. -/
theorem changeDirectory_dotdot_raises (st : St)
    (h1 : st.current_dir.fspath = st.base_dir)
    (h2 : strStartsWith st.base_dir "/" = true) :
    changeDirectory st ".." = .error ⟨startswithPosixPathMsg⟩ := by
  have hdne : dirname st.current_dir.fspath ≠ "" := by
    rw [h1]
    exact dirname_ne_empty _ h2
  simp only [changeDirectory, configBaseDir, pyStartswith]
  rw [if_neg (show ¬(".." : String) = "" from by decide), if_pos trivial, if_pos hdne]

/-- `_change_directory` on any path other than `` and `..`: the sandbox test
raises. -/
theorem changeDirectory_path_raises (st : St) (path : String)
    (h0 : path ≠ "") (h2 : path ≠ "..") :
    changeDirectory st path = .error ⟨startswithPosixPathMsg⟩ := by
  simp only [changeDirectory, configBaseDir, pyStartswith]
  rw [if_neg h0, if_neg h2]

/-- `_list_command` always raises: it has no usage branch, and its sandbox
test raises on every input. -/
theorem listCommand_raises (st : St) (path : String) :
    listCommand st path = .error ⟨startswithPosixPathMsg⟩ := by
  simp only [listCommand, configBaseDir, pyStartswith]

/-- `_read_file` on any non-empty filename: the sandbox test raises (the
extension dispatch and the media signals below it are unreachable). -/
theorem readFile_raises (st : St) (filename : String) (h0 : filename ≠ "") :
    readFile st filename = .error ⟨startswithPosixPathMsg⟩ := by
  simp only [readFile, configBaseDir, pyStartswith]
  rw [if_neg h0]

/-! ### Concrete demonstration state (for witnesses and counterexamples) -/

/-- A closed host: network down, psutil unavailable. -/
def demoHost : Host :=
  { timeStr := "12:00:00"
    dateStr := "2024-01-01 Monday"
    envUser := some "alice"
    uptimeSeconds := some 3724
    sysQuery := .error "psutil unavailable"
    psReport := .ok "no processes"
    killReport := .ok "no such process"
    dfReport := .ok "disk 50%"
    freeReport := .ok "memory 50%"
    net := fun _ => .error "timeout"
    latencyMs := 12 }

/-- A closed sandbox filesystem rooted at `/app/src`, holding a directory and
two files. -/
def demoFs : Fs :=
  [("/app/src", FsNode.dir),
   ("/app/src/documents", FsNode.dir),
   ("/app/src/logo.png", FsNode.file "png-bytes"),
   ("/app/src/readme.txt", FsNode.file "hello")]

/-- A freshly constructed session over the demo sandbox. -/
def demoSt : St := initSt "/app/src" demoFs demoHost

/-- An unknown verb misses every entry of the registry chain. -/
theorem lookupHandler_eq_none (a : String) (h : a ∉ registryVerbs) :
    lookupHandler a = none := by
  rw [lookupHandler,
    if_neg (fun he => h (by rw [he]; decide)),
    if_neg (fun he => h (by rw [he]; decide)),
    if_neg (fun he => h (by rw [he]; decide)),
    if_neg (fun he => h (by rw [he]; decide)),
    if_neg (fun he => h (by rw [he]; decide)),
    if_neg (fun he => h (by rw [he]; decide)),
    if_neg (fun he => h (by rw [he]; decide)),
    if_neg (fun he => h (by rw [he]; decide)),
    if_neg (fun he => h (by rw [he]; decide)),
    if_neg (fun he => h (by rw [he]; decide)),
    if_neg (fun he => h (by rw [he]; decide)),
    if_neg (fun he => h (by rw [he]; decide)),
    if_neg (fun he => h (by rw [he]; decide)),
    if_neg (fun he => h (by rw [he]; decide)),
    if_neg (fun he => h (by rw [he]; decide)),
    if_neg (fun he => h (by rw [he]; decide)),
    if_neg (fun he => h (by rw [he]; decide)),
    if_neg (fun he => h (by rw [he]; decide)),
    if_neg (fun he => h (by rw [he]; decide)),
    if_neg (fun he => h (by rw [he]; decide)),
    if_neg (fun he => h (by rw [he]; decide)),
    if_neg (fun he => h (by rw [he]; decide)),
    if_neg (fun he => h (by rw [he]; decide)),
    if_neg (fun he => h (by rw [he]; decide)),
    if_neg (fun he => h (by rw [he]; decide)),
    if_neg (fun he => h (by rw [he]; decide)),
    if_neg (fun he => h (by rw [he]; decide)),
    if_neg (fun he => h (by rw [he]; decide)),
    if_neg (fun he => h (by rw [he]; decide)),
    if_neg (fun he => h (by rw [he]; decide)),
    if_neg (fun he => h (by rw [he]; decide)),
    if_neg (fun he => h (by rw [he]; decide)),
    if_neg (fun he => h (by rw [he]; decide)),
    if_neg (fun he => h (by rw [he]; decide)),
    if_neg (fun he => h (by rw [he]; decide)),
    if_neg (fun he => h (by rw [he]; decide))]

/-- A string whose head character is not an underscore is no signal. -/
theorem isSignal_false_of_head (s : String) (hc : s.data.head? ≠ some '_') :
    isSignal s = false := by
  cases hd : s.data with
  | nil =>
    rw [String.ext hd]
    decide
  | cons c rest =>
    rw [String.ext hd]
    refine isSignal_head_ne c rest (fun hce => ?_)
    rw [hd, hce] at hc
    exact hc rfl

/-! ### The claims -/

/-- C1: in every session state reachable by executing any sequence of
commands from a freshly constructed `FileBrowser`, `current_dir` is equal to
the sandbox root `Config.BASE_DIR` or a component-wise descendant of it; no
command execution leaves `current_dir` pointing outside the sandbox root.
(It holds because `current_dir` in fact never changes: the only handler that
assigns it, `_change_directory`, raises `TypeError` in its sandbox check
before either assignment, so every reachable state has
`current_dir = Config.BASE_DIR`.) -/
theorem currentDir_always_in_sandbox (baseDir : String) (fs : Fs) (host : Host)
    (cs : List String) :
    pathUnder baseDir ((run (initSt baseDir fs host) cs).current_dir.fspath) = true := by
  obtain ⟨h1, _⟩ := run_core cs (initSt baseDir fs host)
  rw [h1]
  show pathUnder baseDir baseDir = true
  rw [pathUnder, List.isPrefixOf_iff_prefix ]

/-- C2 (failing evaluation): `cd documents`, where `documents` is an existing
directory inside the sandbox, neither operates on the resolved path (the
directory is never entered) nor returns an access-denied error: the sandbox
check itself raises `TypeError` (`Config.BASE_DIR` is a `pathlib.PosixPath`),
surfaced as the generic execution-error text. -/
theorem cd_insandbox_fails_with_typeerror :
    pathExists demoFs "/app/src/documents" = true ∧
    isDirFs demoFs "/app/src/documents" = true ∧
    outputOf demoSt "cd documents" =
      "Error executing 'cd': startswith first arg must be str or a tuple of str, not PosixPath" ∧
    (runStep demoSt "cd documents").current_dir = PyVal.posixPath "/app/src" := by
  decide

/-- C3: for every session state and every input line, `execute` returns a
string - no exception crosses the public boundary: the registry dispatch is
wrapped in `try/except Exception`, the non-dispatch paths are pure, and every
handler (including the spec-modelled `mkdir`, `rm`, `rename`, `find`,
`properties`, `ps`, `df`, `free`) either returns text or raises into that
`except` clause. -/
theorem execute_never_raises (st : St) (raw : String) :
    ∃ r, execute st raw = Except.ok r := by
  by_cases he : pyStrip raw = ""
  · exact ⟨("", st), execute_empty st raw he⟩
  · cases hl : lookupHandler (actionOf raw) with
    | none => exact ⟨_, execute_unknown_verb st raw he hl⟩
    | some handler =>
      cases hh : handler (addToHistory st (pyStrip raw)) (argumentOf raw) with
      | ok r => exact ⟨r, execute_handler_ok st raw he handler hl r.1 r.2 (by rw [hh])⟩
      | error e => exact ⟨_, execute_handler_err st raw he handler hl e hh⟩

/-- C8 (failing evaluation): `cat logo.png` on an existing regular `.png`
file inside the sandbox does not return `__IMAGE__::logo.png`: the sandbox
check of `_read_file` raises `TypeError` before the extension dispatch, and
`execute` surfaces the generic execution-error text. -/
theorem cat_image_fails_with_typeerror :
    pathExists demoFs "/app/src/logo.png" = true ∧
    isFileFs demoFs "/app/src/logo.png" = true ∧
    outputOf demoSt "cat logo.png" =
      "Error executing 'cat': startswith first arg must be str or a tuple of str, not PosixPath" ∧
    strStartsWith (outputOf demoSt "cat logo.png") "__IMAGE__::" = false := by
  decide

/-- Iterated `cd ..` steps. -/
def cdUpIter (st : St) : Nat → St
  | 0 => st
  | k + 1 => cdUpIter (runStep st "cd ..") k

/-- C4 (counterexample): from a fresh session at the sandbox root, `cd ..`
does produce an error response - the clamp test itself raises `TypeError`,
surfaced as the execution-error text - so the claim's "does not produce an
error response" is false (even the intended branch would return the error
text "❌ Already at root directory"). -/
theorem cd_dotdot_at_root_errors :
    demoSt.current_dir = PyVal.posixPath demoSt.base_dir ∧
    outputOf demoSt "cd .." =
      "Error executing 'cd': startswith first arg must be str or a tuple of str, not PosixPath" ∧
    strStartsWith (outputOf demoSt "cd ..") "Error" = true ∧
    (runStep demoSt "cd ..").current_dir = PyVal.posixPath "/app/src" := by
  decide

/-- C4 (amended): from any session whose `current_dir` is the (absolute)
sandbox root, executing `cd ..` once or repeatedly leaves `current_dir`
equal to the root, but each invocation returns an error text rather than a
silent no-op. -/
theorem cd_dotdot_clamped_with_error (st : St) (k : Nat)
    (h1 : st.current_dir = PyVal.posixPath st.base_dir)
    (h2 : strStartsWith st.base_dir "/" = true) :
    (cdUpIter st k).current_dir = st.current_dir ∧
    outputOf st "cd .." = "Error executing 'cd': " ++ startswithPosixPathMsg := by
  constructor
  · clear h1 h2
    induction k generalizing st with
    | zero => rfl
    | succ k ih =>
      rw [cdUpIter, ih (runStep st "cd ..")]
      exact (runStep_core st "cd ..").1
  · have hne : pyStrip "cd .." ≠ "" := by decide
    have hact : actionOf "cd .." = "cd" := by decide
    have hl : lookupHandler (actionOf "cd ..") = some changeDirectory := by
      rw [hact]
      rfl
    have harg : argumentOf "cd .." = ".." := by decide
    have hcd : changeDirectory (addToHistory st (pyStrip "cd ..")) ".." =
        .error ⟨startswithPosixPathMsg⟩ := by
      apply changeDirectory_dotdot_raises
      · rw [addToHistory_current_dir, addToHistory_base_dir, h1]
        rfl
      · rw [addToHistory_base_dir]
        exact h2
    rw [outputOf, execute_handler_err st "cd .." hne changeDirectory hl
      ⟨startswithPosixPathMsg⟩ (by rw [harg]; exact hcd)]
    rfl

/-- C4 (witness): the amended statement at the demo session with three
iterations. -/
theorem cd_dotdot_clamped_with_error_witness :
    demoSt.current_dir = PyVal.posixPath demoSt.base_dir ∧
    strStartsWith demoSt.base_dir "/" = true ∧
    ((cdUpIter demoSt 3).current_dir = demoSt.current_dir ∧
     outputOf demoSt "cd .." = "Error executing 'cd': " ++ startswithPosixPathMsg) :=
  ⟨by decide, by decide, cd_dotdot_clamped_with_error demoSt 3 (by decide) (by decide)⟩

/-- C5: after executing a sequence of `k` non-blank commands on a fresh
session, the history holds exactly `min k 100` entries (the code's
`max_history` is 100), in execution order with the most recent last; once
`k` exceeds 100 the evicted entries are exactly the `k - 100` oldest ones. -/
theorem history_fifo_bounded (baseDir : String) (fs : Fs) (host : Host)
    (cs : List String) (h : ∀ c ∈ cs, pyStrip c ≠ "") :
    (run (initSt baseDir fs host) cs).command_history.map HistEntry.command =
      (cs.map pyStrip).drop (cs.length - maxHistory) ∧
    (run (initSt baseDir fs host) cs).command_history.length = min cs.length maxHistory := by
  have hfold := run_history_fold cs (initSt baseDir fs host) h
  rw [show (initSt baseDir fs host).command_history = [] from rfl, List.map_nil] at hfold
  obtain ⟨he, hl⟩ := clampApp_foldl (cs.map pyStrip) [] (by simp [maxHistory])
  rw [List.length_nil, List.length_map, Nat.zero_add] at he hl
  constructor
  · rw [hfold, he, List.nil_append]
  · have := congrArg List.length hfold
    rw [List.length_map] at this
    rw [this, hl]

/-- C5 (witness): a two-command run on the demo session. -/
theorem history_fifo_bounded_witness :
    (∀ c ∈ ["echo hi", "clear"], pyStrip c ≠ "") ∧
    ((run (initSt "/app/src" demoFs demoHost) ["echo hi", "clear"]).command_history.map
        HistEntry.command =
      ((["echo hi", "clear"].map pyStrip).drop (["echo hi", "clear"].length - maxHistory)) ∧
     (run (initSt "/app/src" demoFs demoHost) ["echo hi", "clear"]).command_history.length =
      min ["echo hi", "clear"].length maxHistory) :=
  ⟨by decide, history_fifo_bounded "/app/src" demoFs demoHost ["echo hi", "clear"] (by decide)⟩

/-- The usage text of `color` without an argument. -/
def colorUsage : String :=
  "Available themes: " ++ joinComma validThemes ++ "\nUsage: color <theme_name>"

/-- The unknown-theme text of `color`. -/
def unknownTheme (arg : String) : String :=
  "Unknown theme '" ++ arg ++ "'. Available: " ++ joinComma validThemes

/-- The usage text of `effect` without an argument. -/
def effectUsage : String :=
  "Available effects: " ++ joinComma validEffects ++ "\nUsage: effect <effect_name>"

/-- The unknown-effect text of `effect`. -/
def unknownEffect (arg : String) : String :=
  "Unknown effect '" ++ arg ++ "'. Available: " ++ joinComma validEffects

/-- The usage text of `game` without an argument. -/
def gameUsage : String :=
  "Available games: " ++ joinComma validGames ++ "\nUsage: game <game_name>"

/-- The unknown-game text of `game`. -/
def unknownGame (arg : String) : String :=
  "Unknown game '" ++ arg ++ "'. Available: " ++ joinComma validGames

theorem isSignal_unknownTheme (arg : String) : isSignal (unknownTheme arg) = false := by
  apply isSignal_false_of_head
  rw [unknownTheme, String.data_append, String.data_append, String.data_append,
    show ("Unknown theme '" : String).data = 'U' :: ("nknown theme '" : String).data from rfl]
  simp only [List.cons_append, List.head?_cons]
  decide

theorem isSignal_unknownEffect (arg : String) : isSignal (unknownEffect arg) = false := by
  apply isSignal_false_of_head
  rw [unknownEffect, String.data_append, String.data_append, String.data_append,
    show ("Unknown effect '" : String).data = 'U' :: ("nknown effect '" : String).data from rfl]
  simp only [List.cons_append, List.head?_cons]
  decide

theorem isSignal_unknownGame (arg : String) : isSignal (unknownGame arg) = false := by
  apply isSignal_false_of_head
  rw [unknownGame, String.data_append, String.data_append, String.data_append,
    show ("Unknown game '" : String).data = 'U' :: ("nknown game '" : String).data from rfl]
  simp only [List.cons_append, List.head?_cons]
  decide

/-- C6 (counterexample): `BLUE` is not in the fixed allow-list of `color`,
yet `color BLUE` produces a signal (with the lowercased payload), because
the handler lowercases its argument before validating - so "for every
non-allow-listed argument ... a usage message and no signal" is false, and
so is "the argument echoed verbatim" reading of the hit case. -/
theorem color_uppercase_argument_signals :
    "BLUE" ∉ validThemes ∧
    outputOf demoSt "color BLUE" = "__COLOR__::blue" ∧
    isSignal (outputOf demoSt "color BLUE") = true := by
  decide

/-- C6 (amended): `color`, `effect` and `game` lowercase their argument
before validating it against their fixed allow-lists.  An argument literally
in the allow-list (all entries are lowercase) is echoed verbatim into the
signal payload; any other argument whose lowercasing hits the allow-list
yields the signal with the lowercased payload; a missing argument yields the
usage text and a remaining argument the unknown-name text, neither of which
is a signal. -/
theorem cosmetic_allowlist_lowercased (st : St) (arg : String) :
    (arg ∈ validThemes → colorCommand st arg = .ok ("__COLOR__::" ++ arg, st)) ∧
    (arg ≠ "" → pyLower arg ∈ validThemes →
      colorCommand st arg = .ok ("__COLOR__::" ++ pyLower arg, st)) ∧
    (colorCommand st "" = .ok (colorUsage, st) ∧ isSignal colorUsage = false) ∧
    (arg ≠ "" → pyLower arg ∉ validThemes →
      colorCommand st arg = .ok (unknownTheme arg, st) ∧ isSignal (unknownTheme arg) = false) ∧
    (arg ∈ validEffects → effectCommand st arg = .ok ("__EFFECT__::" ++ arg, st)) ∧
    (arg ≠ "" → pyLower arg ∈ validEffects →
      effectCommand st arg = .ok ("__EFFECT__::" ++ pyLower arg, st)) ∧
    (effectCommand st "" = .ok (effectUsage, st) ∧ isSignal effectUsage = false) ∧
    (arg ≠ "" → pyLower arg ∉ validEffects →
      effectCommand st arg = .ok (unknownEffect arg, st) ∧ isSignal (unknownEffect arg) = false) ∧
    (arg ∈ validGames → gameCommand st arg = .ok ("__GAME__::" ++ arg, st)) ∧
    (arg ≠ "" → pyLower arg ∈ validGames →
      gameCommand st arg = .ok ("__GAME__::" ++ pyLower arg, st)) ∧
    (gameCommand st "" = .ok (gameUsage, st) ∧ isSignal gameUsage = false) ∧
    (arg ≠ "" → pyLower arg ∉ validGames →
      gameCommand st arg = .ok (unknownGame arg, st) ∧ isSignal (unknownGame arg) = false) := by
  refine ⟨?_, ?_, ⟨rfl, by decide⟩, ?_, ?_, ?_, ⟨rfl, by decide⟩, ?_, ?_, ?_, ⟨rfl, by decide⟩, ?_⟩
  · intro h
    fin_cases h <;> rfl
  · intro hne hmem
    simp only [colorCommand]
    rw [if_neg hne, if_pos hmem]
  · intro hne hnm
    refine ⟨?_, isSignal_unknownTheme arg⟩
    simp only [colorCommand]
    rw [if_neg hne, if_neg hnm]
    rfl
  · intro h
    fin_cases h <;> rfl
  · intro hne hmem
    simp only [effectCommand]
    rw [if_neg hne, if_pos hmem]
  · intro hne hnm
    refine ⟨?_, isSignal_unknownEffect arg⟩
    simp only [effectCommand]
    rw [if_neg hne, if_neg hnm]
    rfl
  · intro h
    fin_cases h <;> rfl
  · intro hne hmem
    simp only [gameCommand]
    rw [if_neg hne, if_pos hmem]
  · intro hne hnm
    refine ⟨?_, isSignal_unknownGame arg⟩
    simp only [gameCommand]
    rw [if_neg hne, if_neg hnm]
    rfl

/-- C6 (witness): `blue` is allow-listed and echoed verbatim; at the
interpreter boundary `color blue` is exactly `__COLOR__::blue`. -/
theorem cosmetic_allowlist_lowercased_witness :
    "blue" ∈ validThemes ∧
    colorCommand demoSt "blue" = .ok ("__COLOR__::" ++ "blue", demoSt) ∧
    outputOf demoSt "color blue" = "__COLOR__::blue" :=
  ⟨by decide, (cosmetic_allowlist_lowercased demoSt "blue").1 (by decide), by decide⟩

/-- The usage text of `wallpaper` without an argument. -/
def wallpaperUsage : String :=
  "Usage: wallpaper <filename>\nExample: wallpaper sunset.jpg"

/-- C7 (counterexample): `wallpaper` performs no allow-list validation:
`zzz.xyz` belongs to no fixed allow-list of the program (no such list exists
in `_wallpaper_command`), yet the command emits the `__WALLPAPER__` signal
instead of a usage message. -/
theorem wallpaper_junk_argument_signals :
    outputOf demoSt "wallpaper zzz.xyz" = "__WALLPAPER__::zzz.xyz" ∧
    isSignal (outputOf demoSt "wallpaper zzz.xyz") = true := by
  decide

/-- C7 (amended): `wallpaper` validates only the presence of an argument: a
missing argument yields the usage text (no signal); every non-empty argument
is echoed verbatim into the `__WALLPAPER__::` signal. -/
theorem wallpaper_echoes_any_argument (st : St) (arg : String) :
    (wallpaperCommand st "" = .ok (wallpaperUsage, st) ∧ isSignal wallpaperUsage = false) ∧
    (arg ≠ "" →
      wallpaperCommand st arg = .ok ("__WALLPAPER__::" ++ arg, st) ∧
      isSignal ("__WALLPAPER__::" ++ arg) = true) := by
  refine ⟨⟨rfl, by decide⟩, fun hne => ⟨?_, ?_⟩⟩
  · simp only [wallpaperCommand]
    rw [if_neg hne]
  · rw [isSignal]
    apply List.any_eq_true.mpr
    refine ⟨"__WALLPAPER__::", by decide, ?_⟩
    rw [strStartsWith, String.data_append]
    exact List.isPrefixOf_iff_prefix.mpr (List.prefix_append _ _)

/-- C7 (witness): the amended statement at a concrete argument. -/
theorem wallpaper_echoes_any_argument_witness :
    (wallpaperCommand demoSt "" = .ok (wallpaperUsage, demoSt) ∧ isSignal wallpaperUsage = false) ∧
    (wallpaperCommand demoSt "sunset.jpg" = .ok ("__WALLPAPER__::" ++ "sunset.jpg", demoSt) ∧
     isSignal ("__WALLPAPER__::" ++ "sunset.jpg") = true) :=
  ⟨(wallpaper_echoes_any_argument demoSt "sunset.jpg").1,
   (wallpaper_echoes_any_argument demoSt "sunset.jpg").2 (by decide)⟩

/-- C9: for every verb not in the registry, `execute` returns (never raises)
exactly the not-found text - which names the verb, contains "not found" and
points at `help` - produces no signal, and leaves `current_dir` unchanged. -/
theorem unknown_verb_not_found (st : St) (raw v arg : String)
    (ht : tokenize raw = some (v, arg)) (hv : pyLower v ∉ registryVerbs) :
    execute st raw = .ok (notFoundMsg (pyLower v), addToHistory st (pyStrip raw)) ∧
    notFoundMsg (pyLower v) =
      "Command '" ++ pyLower v ++ "' not found. Type 'help' for available commands." ∧
    (runStep st raw).current_dir = st.current_dir ∧
    isSignal (notFoundMsg (pyLower v)) = false := by
  have hne : pyStrip raw ≠ "" := by
    intro he
    rw [tokenize, if_pos he] at ht
    exact Option.noConfusion ht
  have hva : verbArg (pyStrip raw) = (v, arg) := by
    rw [tokenize, if_neg hne] at ht
    exact Option.some.inj ht
  have hact : actionOf raw = pyLower v := by
    rw [actionOf, hva]
  have hl : lookupHandler (actionOf raw) = none := by
    rw [hact]
    exact lookupHandler_eq_none _ hv
  refine ⟨?_, rfl, (runStep_core st raw).1, ?_⟩
  · rw [execute_unknown_verb st raw hne hl, hact]
  · apply isSignal_false_of_head
    rw [notFoundMsg, String.data_append, String.data_append,
      show ("Command '" : String).data = 'C' :: ("ommand '" : String).data from rfl]
    simp only [List.cons_append, List.head?_cons]
    decide

/-- C9 (witness): the unknown verb `frobnicate`. -/
theorem unknown_verb_not_found_witness :
    tokenize "frobnicate now" = some ("frobnicate", "now") ∧
    pyLower "frobnicate" ∉ registryVerbs ∧
    (execute demoSt "frobnicate now" =
       .ok (notFoundMsg (pyLower "frobnicate"), addToHistory demoSt (pyStrip "frobnicate now")) ∧
     notFoundMsg (pyLower "frobnicate") =
       "Command '" ++ pyLower "frobnicate" ++ "' not found. Type 'help' for available commands." ∧
     (runStep demoSt "frobnicate now").current_dir = demoSt.current_dir ∧
     isSignal (notFoundMsg (pyLower "frobnicate")) = false) :=
  ⟨by decide, by decide,
   unknown_verb_not_found demoSt "frobnicate now" "frobnicate" "now" (by decide) (by decide)⟩

/-- C10: a line that is blank after stripping returns the empty string and
leaves the session untouched; every other line - unknown verbs and raising
handlers included - gets one history entry recording the stripped command,
the timestamp and the working directory at execution time, appended before
dispatch and bounded by the 100-entry limit; the clock advances by one. -/
theorem history_records_every_command (st : St) (raw : String) :
    (pyStrip raw = "" → execute st raw = .ok ("", st)) ∧
    (pyStrip raw ≠ "" →
      (runStep st raw).command_history =
        boundedHistory (st.command_history ++
          [(⟨pyStrip raw, st.clock, st.current_dir⟩ : HistEntry)]) ∧
      (runStep st raw).clock = st.clock + 1) := by
  refine ⟨fun he => execute_empty st raw he, fun hne => ?_⟩
  obtain ⟨hh, hc⟩ := runStep_history st raw hne
  exact ⟨hh, hc⟩

/-- C10 (witness): a blank line and a non-blank line on the demo session. -/
theorem history_records_every_command_witness :
    pyStrip "   " = "" ∧
    execute demoSt "   " = .ok ("", demoSt) ∧
    pyStrip "  ps  aux " ≠ "" ∧
    ((runStep demoSt "  ps  aux ").command_history =
       boundedHistory (demoSt.command_history ++
         [(⟨pyStrip "  ps  aux ", demoSt.clock, demoSt.current_dir⟩ : HistEntry)]) ∧
     (runStep demoSt "  ps  aux ").clock = demoSt.clock + 1) :=
  ⟨by decide, (history_records_every_command demoSt "   ").1 (by decide), by decide,
   (history_records_every_command demoSt "  ps  aux ").2 (by decide)⟩
